import Mathlib

/-!
Shallow embedding of the borrow/return reconciliation slice of the
UMakLEBS equipment-tracking application.

The production (MySQL) handlers live in
`(UmakLEBS)FILE/(UmakLEBS)Slips/(UmakLEBS)MainFile/app.py`:
`process_return`, `kiosk_process_return`, `borrow_confirm`,
`kiosk_borrow_confirm`.  The SQLite prototype handlers live in
`(UmakLEBS)FILE/(UmakLEBS)Slips/app_prev.py`: `confirm_return`,
`reject_return`.  Database rows are modelled as Lean structures,
tables as lists kept in insertion (AUTO_INCREMENT) order, Python
ints as `Int`, and the per-statement persistence layer of a return
submission takes a fault oracle so that transaction rollback can be
stated.  The connection helper sets no autocommit, so statements run
inside one transaction that is only persisted by `conn.commit()`;
closing the connection without committing discards all mutations.
-/

namespace UmakLebs

/-- Characters removed by Python `str.strip()` with no argument
(the ASCII whitespace subset that can occur in form input). -/
def pySpace (c : Char) : Bool :=
  c == ' ' || c == '\t' || c == '\n' || c == '\r' || c == '\x0b' || c == '\x0c'

def pyStripChars (s : List Char) : List Char :=
  ((s.dropWhile pySpace).reverse.dropWhile pySpace).reverse

/-- Python `s.strip()`. -/
def pyStrip (s : String) : String :=
  ⟨pyStripChars s.data⟩

def digitsAcc : List Char → Nat → Option Nat
  | [], acc => some acc
  | c :: cs, acc =>
    if c.isDigit then digitsAcc cs (acc * 10 + (c.toNat - 48)) else none

def pyIntChars : List Char → Option Int
  | [] => none
  | '-' :: cs => if cs = [] then none else (digitsAcc cs 0).map (fun n => -(n : Int))
  | '+' :: cs => if cs = [] then none else (digitsAcc cs 0).map (fun n => (n : Int))
  | cs => (digitsAcc cs 0).map (fun n => (n : Int))

/-- Python `int(s)` on a string: surrounding whitespace is tolerated,
then an optional sign and a nonempty digit run; `none` models the
`ValueError` raised on any other input. -/
def pyInt (s : String) : Option Int :=
  pyIntChars (pyStripChars s.data)

/-- One row of the `transactions` table (the columns the
reconciliation paths read or write). -/
structure Txn where
  borrow_id : Nat
  rfid : String
  item_id : Nat
  borrowed_qty : Int
  returned_qty : Int
  before_condition : String
  after_condition : Option String
  return_date : Option Nat
deriving Repr, DecidableEq

/-- One row of the `inventory` table. -/
structure Item where
  item_id : Nat
  item_name : String
  quantity : Int
  borrowed : Int
  status : String
deriving Repr, DecidableEq

/-- The database state seen by the MySQL handlers.  `txns` is kept in
insertion order; `borrow_id` is AUTO_INCREMENT so insertion order is
also ascending `borrow_id` order.  `borrowers` holds the rfids present
in the `borrowers` table. -/
structure DB where
  borrowers : List String
  items : List Item
  txns : List Txn
  nextId : Nat
deriving Repr, DecidableEq

/-- One aligned triple of the `item_name[]` / `quantity_returned[]` /
`condition_returned[]` form arrays of a return submission. -/
structure RetEntry where
  item_name : String
  qty : String
  cond : String
deriving Repr, DecidableEq

/-- One element of the `returned_items` receipt list built by
`process_return`. -/
structure RetItem where
  item_name : String
  quantity : Int
  condition : String
deriving Repr, DecidableEq

/-- Outstanding balance of a transaction row,
`borrowed_qty - returned_qty`. -/
def outstanding (t : Txn) : Int :=
  t.borrowed_qty - t.returned_qty

/-- The SELECT in `process_return`: all open transactions of
`(rfid, item_name)`, joined against `inventory` on `item_id`, in
ascending `borrow_id` order (the list is stored in that order). -/
def fetchOpen (db : DB) (rfid item_name : String) : List Txn :=
  db.txns.filter (fun t =>
    t.rfid == rfid && decide (t.returned_qty < t.borrowed_qty) &&
      db.items.any (fun i => i.item_id == t.item_id && i.item_name == item_name))

/-- The values written by one UPDATE of the inner loop of
`process_return`. -/
structure RowUpdate where
  borrow_id : Nat
  new_returned : Int
  credited : Int
deriving Repr, DecidableEq

/-- The inner per-row loop of `process_return`: walk the fetched open
rows oldest-first, credit `min(remaining, outstanding)` to each row,
and break once the remaining claim is exhausted. -/
def walkUpdates : List Txn → Int → List RowUpdate
  | [], _ => []
  | t :: ts, rem =>
    let credit := min rem (outstanding t)
    { borrow_id := t.borrow_id, new_returned := t.returned_qty + credit,
      credited := credit }
      :: (if rem - credit ≤ 0 then [] else walkUpdates ts (rem - credit))

/-- The UPDATE statement on `transactions`: set `returned_qty` to the
precomputed value and stamp condition and return date on that row. -/
def applyUpdate (txns : List Txn) (u : RowUpdate) (cond : String) (d : Nat) :
    List Txn :=
  txns.map (fun t =>
    if t.borrow_id = u.borrow_id then
      { t with returned_qty := u.new_returned, after_condition := some cond,
               return_date := some d }
    else t)

/-- `GREATEST(SUM(borrowed_qty - returned_qty), 0)` over all
transaction rows of one item. -/
def stillBorrowed (txns : List Txn) (iid : Nat) : Int :=
  max (((txns.filter (fun t => t.item_id == iid)).map
         (fun t => t.borrowed_qty - t.returned_qty)).sum) 0

/-- The UPDATE on `inventory` joined against the per-item aggregate:
recompute `borrowed` and derive `status`.  When the item has no
transaction rows at all the join is empty and nothing is written. -/
def recomputeItem (db : DB) (iid : Nat) : DB :=
  if (db.txns.filter (fun t => t.item_id == iid)).isEmpty then db
  else
    { db with items := db.items.map (fun i =>
        if i.item_id = iid then
          { i with borrowed := stillBorrowed db.txns iid,
                   status := if stillBorrowed db.txns iid < i.quantity
                             then "Available" else "Unavailable" }
        else i) }

/-- Run the per-row UPDATE statements of one item in order.  `oracle`
models the persistence layer: `oracle ctr = true` makes the statement
numbered `ctr` raise, which aborts the whole request handler. -/
def runUpdates (oracle : Nat → Bool) (cond : String) (d : Nat) :
    List Txn → List RowUpdate → Nat → Except Unit (List Txn × Nat)
  | txns, [], ctr => Except.ok (txns, ctr)
  | txns, u :: us, ctr =>
    if oracle ctr then Except.error ()
    else runUpdates oracle cond d (applyUpdate txns u cond d) us (ctr + 1)

/-- The body of the per-item loop of `process_return`: validate the
entry, fetch the open rows, walk them, then recompute the item's
inventory row. -/
def processEntry (oracle : Nat → Bool) (db : DB) (rfid : String)
    (e : RetEntry) (d : Nat) (ctr : Nat) :
    Except Unit (DB × List RetItem × Nat) :=
  if pyStrip e.qty = "" ∨ pyStrip e.cond = "" then Except.ok (db, [], ctr)
  else
    match pyInt e.qty with
    | none => Except.ok (db, [], ctr)
    | some q =>
      if q ≤ 0 then Except.ok (db, [], ctr)
      else
        match fetchOpen db rfid e.item_name with
        | [] => Except.ok (db, [], ctr)
        | t0 :: rest =>
          let ups := walkUpdates (t0 :: rest) q
          match runUpdates oracle e.cond d db.txns ups ctr with
          | Except.error _ => Except.error ()
          | Except.ok (txns1, ctr1) =>
            if oracle ctr1 then Except.error ()
            else
              Except.ok (recomputeItem { db with txns := txns1 } t0.item_id,
                ups.map (fun u =>
                  { item_name := e.item_name, quantity := u.credited,
                    condition := e.cond }),
                ctr1 + 1)

/-- The per-item loop of `process_return` over all submitted entries,
accumulating the `returned_items` receipt list. -/
def processEntries (oracle : Nat → Bool) (rfid : String) (d : Nat) :
    DB → List RetEntry → Nat → List RetItem → Except Unit (DB × List RetItem)
  | db, [], _, acc => Except.ok (db, acc)
  | db, e :: es, ctr, acc =>
    match processEntry oracle db rfid e d ctr with
    | Except.error _ => Except.error ()
    | Except.ok (db1, items, ctr1) =>
      processEntries oracle rfid d db1 es ctr1 (acc ++ items)

/-- The route handler `process_return` of app.py.  The result is the
committed database state, the flash message shown to the caller, and
the credited-items receipt list.  No commit is issued on the
borrower-missing path, on the nothing-returned path, or when a
statement raises, so those paths leave the stored state unchanged. -/
def process_return (oracle : Nat → Bool) (db : DB) (rfid : String)
    (entries : List RetEntry) (d : Nat) : DB × String × List RetItem :=
  if rfid ∈ db.borrowers then
    match processEntries oracle rfid d db entries 0 [] with
    | Except.error _ =>
        (db, "An error occurred while processing the return.", [])
    | Except.ok (db1, items) =>
      if items.isEmpty then
        (db, "⚠️ No items were returned. Please input at least one valid quantity.", [])
      else
        (db1, "✅ Return recorded successfully. Partial returns saved if applicable.", items)
  else (db, "⚠️ Borrower not found.", [])

/-- The route handler `kiosk_process_return` of app.py is textually
identical to `process_return` on this slice. -/
def kiosk_process_return (oracle : Nat → Bool) (db : DB) (rfid : String)
    (entries : List RetEntry) (d : Nat) : DB × String × List RetItem :=
  process_return oracle db rfid entries d

/-- One aligned triple of the `equipment[]` / `quantity[]` /
`before_condition[]` form arrays of a borrow submission. -/
structure BorrowEntry where
  eq : String
  qty : String
  cond : String
deriving Repr, DecidableEq

/-- The SELECT on `inventory` by item name (first matching row). -/
def findItemByName (db : DB) (name : String) : Option Item :=
  db.items.find? (fun i => i.item_name == name)

/-- The INSERT INTO `transactions` of `borrow_confirm`:
`returned_qty` defaults to 0, `borrow_id` is AUTO_INCREMENT. -/
def insertTxn (db : DB) (rfid : String) (iid : Nat) (q : Int) (cond : String) :
    DB :=
  { db with
    txns := db.txns ++
      [{ borrow_id := db.nextId, rfid := rfid, item_id := iid,
         borrowed_qty := q, returned_qty := 0, before_condition := cond,
         after_condition := none, return_date := none }],
    nextId := db.nextId + 1 }

/-- `UPDATE inventory SET borrowed = borrowed + q` — note this
statement does not touch `status`. -/
def bumpBorrowed (db : DB) (iid : Nat) (q : Int) : DB :=
  { db with items := db.items.map (fun i =>
      if i.item_id = iid then { i with borrowed := i.borrowed + q } else i) }

/-- The body of the per-equipment loop of `borrow_confirm`: a missing
item or an insufficient-stock item is skipped with no write at all; a
non-numeric quantity raises `ValueError` and aborts the request. -/
def borrowStep (db : DB) (rfid : String) (e : BorrowEntry) :
    Except Unit (DB × Option Nat) :=
  match findItemByName db e.eq with
  | none => Except.ok (db, none)
  | some it =>
    match pyInt e.qty with
    | none => Except.error ()
    | some q =>
      if it.quantity - it.borrowed < q then Except.ok (db, none)
      else
        Except.ok (bumpBorrowed (insertTxn db rfid it.item_id q e.cond)
          it.item_id q, some db.nextId)

def borrowSteps (rfid : String) :
    DB → List BorrowEntry → List Nat → Except Unit (DB × List Nat)
  | db, [], ids => Except.ok (db, ids)
  | db, e :: es, ids =>
    match borrowStep db rfid e with
    | Except.error _ => Except.error ()
    | Except.ok (db1, some i) => borrowSteps rfid db1 es (ids ++ [i])
    | Except.ok (db1, none) => borrowSteps rfid db1 es ids

/-- The route handler `borrow_confirm` of app.py
(`kiosk_borrow_confirm` is identical on this slice).  The borrower and
the instructor must both exist; an exception mid-loop skips the commit
so the stored state is unchanged on that path. -/
def borrow_confirm (db : DB) (rfid instructor_rfid : String)
    (entries : List BorrowEntry) : DB × List Nat :=
  if rfid ∈ db.borrowers ∧ instructor_rfid ∈ db.borrowers then
    match borrowSteps rfid db entries [] with
    | Except.error _ => (db, [])
    | Except.ok (db1, ids) => (db1, ids)
  else (db, [])

/-- One `{equipment, quantity, condition}` claim stored inside a
`pending_returns` row of the SQLite prototype (the kiosk submit route
already applied `int()` to the quantity). -/
structure ClaimLine where
  equipment : String
  quantity : Int
  condition : String
deriving Repr, DecidableEq

/-- One row of the prototype's `pending_returns` staging table. -/
structure Pending where
  id : Nat
  borrow_id : Nat
  user_id : Nat
  return_data : List ClaimLine
deriving Repr, DecidableEq

/-- Database state seen by the SQLite prototype handlers.
`borrowers` holds the user_ids present in the `borrowers` table. -/
structure PrevDB where
  borrowers : List Nat
  items : List Item
  txns : List Txn
  pendings : List Pending
deriving Repr, DecidableEq

/-- One iteration of the loop in `confirm_return` (app_prev.py):
`UPDATE transactions SET returned_qty = returned_qty + q` on the rows
matching `(borrow_id, item_id)` — with no clamp against
`borrowed_qty` — then decrement the item's `borrowed` by the claimed
quantity, clamped at 0, deriving `status` from the pre-update value. -/
def confirmApplyLine (borrow_id : Nat) (d : Nat) (db : PrevDB)
    (line : ClaimLine) : PrevDB :=
  match db.items.find? (fun i => i.item_name == line.equipment) with
  | none => db
  | some it =>
    let q := line.quantity
    { db with
      txns := db.txns.map (fun t =>
        if t.borrow_id = borrow_id ∧ t.item_id = it.item_id then
          { t with returned_qty := t.returned_qty + q,
                   after_condition := some line.condition,
                   return_date := some d }
        else t),
      items := db.items.map (fun i =>
        if i.item_id = it.item_id then
          { i with borrowed := if i.borrowed - q < 0 then 0 else i.borrowed - q,
                   status := if i.borrowed - q ≤ 0 then "Available" else "Borrowed" }
        else i) }

inductive ConfirmResult
  | ok
  | pendingNotFound
  | borrowerNotFound
deriving Repr, DecidableEq

/-- The route handler `confirm_return` of app_prev.py: fetch the
pending row, apply every stored claim line against the live
transaction and inventory records, delete the staging row, commit. -/
def confirm_return (db : PrevDB) (pending_id : Nat) (d : Nat) :
    PrevDB × ConfirmResult :=
  match db.pendings.find? (fun p => p.id == pending_id) with
  | none => (db, ConfirmResult.pendingNotFound)
  | some p =>
    if p.user_id ∈ db.borrowers then
      let db1 := p.return_data.foldl (confirmApplyLine p.borrow_id d) db
      ({ db1 with pendings := db1.pendings.filter (fun q => q.id != pending_id) },
       ConfirmResult.ok)
    else (db, ConfirmResult.borrowerNotFound)

/-- The route handler `reject_return` of app_prev.py: delete the
staging row and touch nothing else. -/
def reject_return (db : PrevDB) (pending_id : Nat) : PrevDB :=
  { db with pendings := db.pendings.filter (fun q => q.id != pending_id) }

/-- Sum of outstanding balances of the first `j` fetched rows. -/
def outBefore (rows : List Txn) (j : Nat) : Int :=
  ((rows.take j).map outstanding).sum

/-- The fault oracle of a run with no persistence failure. -/
def noFail : Nat → Bool := fun _ => false

/-! ### Claim C8: invalid claimed quantities are silently skipped -/

/-- C8.  An entry of a return submission whose claimed quantity is
non-numeric (`int()` raises) or non-positive is silently skipped by
the per-item loop of `process_return`: the database is untouched, no
statement runs, and nothing is contributed to the credited-items
receipt list. -/
theorem c8_invalid_qty_skipped (oracle : Nat → Bool) (db : DB)
    (rfid : String) (e : RetEntry) (d : Nat) (ctr : Nat)
    (h : pyInt e.qty = none ∨ ∃ q, pyInt e.qty = some q ∧ q ≤ 0) :
    processEntry oracle db rfid e d ctr = Except.ok (db, [], ctr) := by
  by_cases hg : pyStrip e.qty = "" ∨ pyStrip e.cond = ""
  · unfold processEntry
    rw [if_pos hg]
  · rcases h with h | ⟨q, hq, hq0⟩
    · simp [processEntry, hg, h]
    · simp [processEntry, hg, hq, hq0]

def c8db : DB :=
  ⟨["R"], [⟨1, "Mouse", 10, 5, "Unavailable"⟩],
   [⟨1, "R", 1, 2, 0, "Good", none, none⟩], 2⟩

theorem c8_invalid_qty_skipped_witness :
    processEntry noFail c8db "R" ⟨"Mouse", "0", "Good"⟩ 7 0 =
      Except.ok (c8db, [], 0) ∧
    processEntry noFail c8db "R" ⟨"Mouse", "abc", "Good"⟩ 7 0 =
      Except.ok (c8db, [], 0) :=
  ⟨c8_invalid_qty_skipped noFail c8db "R" ⟨"Mouse", "0", "Good"⟩ 7 0
     (Or.inr ⟨0, by decide, by decide⟩),
   c8_invalid_qty_skipped noFail c8db "R" ⟨"Mouse", "abc", "Good"⟩ 7 0
     (Or.inl (by decide))⟩

/-! ### Claim C10: blank condition-after skips the whole entry -/

/-- C10.  An entry of a return submission whose condition-after
string is empty or whitespace-only is skipped entirely by the staff
return handler — even when the claimed quantity is valid — and the
kiosk return handler is the same function. -/
theorem c10_blank_condition_skipped :
    (∀ (oracle : Nat → Bool) (db : DB) (rfid : String) (e : RetEntry)
       (d ctr : Nat), pyStrip e.cond = "" →
       processEntry oracle db rfid e d ctr = Except.ok (db, [], ctr))
  ∧ (∀ (oracle : Nat → Bool) (db : DB) (rfid : String)
       (entries : List RetEntry) (d : Nat),
       kiosk_process_return oracle db rfid entries d =
         process_return oracle db rfid entries d) := by
  constructor
  · intro oracle db rfid e d ctr h
    unfold processEntry
    rw [if_pos (Or.inr h)]
  · intro oracle db rfid entries d
    rfl

def c10db : DB :=
  ⟨["R"], [⟨1, "Mouse", 10, 5, "Unavailable"⟩],
   [⟨1, "R", 1, 2, 0, "Good", none, none⟩], 2⟩

theorem c10_blank_condition_skipped_witness :
    processEntry noFail c10db "R" ⟨"Mouse", "2", "   "⟩ 7 0 =
      Except.ok (c10db, [], 0) :=
  c10_blank_condition_skipped.1 noFail c10db "R" ⟨"Mouse", "2", "   "⟩ 7 0
    (by decide)

instance exceptDecEq {ε α : Type} [DecidableEq ε] [DecidableEq α] :
    DecidableEq (Except ε α) := fun a b =>
  match a, b with
  | Except.error x, Except.error y =>
    if h : x = y then isTrue (by rw [h]) else
      isFalse (fun hc => by cases hc; exact h rfl)
  | Except.error _, Except.ok _ => isFalse (fun hc => by cases hc)
  | Except.ok _, Except.error _ => isFalse (fun hc => by cases hc)
  | Except.ok x, Except.ok y =>
    if h : x = y then isTrue (by rw [h]) else
      isFalse (fun hc => by cases hc; exact h rfl)

/-! ### Claim C4: a return submission is atomic -/

/-- C4.  If any persistence statement of a return submission raises —
including one on a later item after earlier items' rows were already
mutated in-transaction — then `process_return` performs no commit:
the returned database state is exactly the input state and the caller
sees the failure flash rather than the partial-success flash. -/
theorem c4_atomic_rollback (oracle : Nat → Bool) (db : DB)
    (rfid : String) (entries : List RetEntry) (d : Nat)
    (hb : rfid ∈ db.borrowers)
    (herr : processEntries oracle rfid d db entries 0 [] = Except.error ()) :
    process_return oracle db rfid entries d =
      (db, "An error occurred while processing the return.", []) := by
  unfold process_return
  rw [if_pos hb, herr]

def c4db : DB :=
  ⟨["R"],
   [⟨1, "Mouse", 5, 1, "Unavailable"⟩, ⟨2, "Key", 5, 1, "Unavailable"⟩],
   [⟨1, "R", 1, 1, 0, "Good", none, none⟩,
    ⟨2, "R", 2, 1, 0, "Good", none, none⟩], 3⟩

def c4entries : List RetEntry :=
  [⟨"Mouse", "1", "Good"⟩, ⟨"Key", "1", "Good"⟩]

/-- The fault strikes at statement 2, the transaction-row UPDATE of
the second item, after the first item's row and ledger were already
mutated in-transaction; nothing is persisted. -/
theorem c4_atomic_rollback_witness :
    process_return (fun n => n == 2) c4db "R" c4entries 7 =
      (c4db, "An error occurred while processing the return.", []) :=
  c4_atomic_rollback (fun n => n == 2) c4db "R" c4entries 7
    (by decide) (by decide)

/-! ### Claim C5: insufficient stock rejects the item request wholly -/

theorem borrowSteps_insufficient (rfid : String) (db : DB)
    (entries : List BorrowEntry) (ids : List Nat)
    (h : ∀ e ∈ entries, ∀ (it : Item) (q : Int),
      findItemByName db e.eq = some it → pyInt e.qty = some q →
      it.quantity - it.borrowed < q) :
    borrowSteps rfid db entries ids = Except.error () ∨
      borrowSteps rfid db entries ids = Except.ok (db, ids) := by
  induction entries generalizing ids with
  | nil => right; rfl
  | cons e es ih =>
    have he := h e (List.mem_cons_self e es)
    have hes : ∀ x ∈ es, ∀ (it : Item) (q : Int),
        findItemByName db x.eq = some it → pyInt x.qty = some q →
        it.quantity - it.borrowed < q :=
      fun x hx => h x (List.mem_cons_of_mem e hx)
    have hcons : borrowSteps rfid db (e :: es) ids =
        match borrowStep db rfid e with
        | Except.error _ => Except.error ()
        | Except.ok (db1, some i) => borrowSteps rfid db1 es (ids ++ [i])
        | Except.ok (db1, none) => borrowSteps rfid db1 es ids := rfl
    cases hf : findItemByName db e.eq with
    | none =>
      have hstep : borrowStep db rfid e = Except.ok (db, none) := by
        simp [borrowStep, hf]
      rw [hcons, hstep]
      exact ih ids hes
    | some it =>
      cases hp : pyInt e.qty with
      | none =>
        have hstep : borrowStep db rfid e = Except.error () := by
          simp [borrowStep, hf, hp]
        rw [hcons, hstep]
        left
        rfl
      | some q =>
        have hstep : borrowStep db rfid e = Except.ok (db, none) := by
          simp [borrowStep, hf, hp, he it q hf hp]
        rw [hcons, hstep]
        exact ih ids hes

/-- C5.  An equipment entry of a borrow request whose quantity
exceeds `total_quantity - borrowed_quantity` is rejected before any
write: the per-entry step inserts no transaction row and leaves the
inventory untouched, and a request all of whose entries are
insufficient leaves the whole database unchanged with no transaction
row created. -/
theorem c5_insufficient_stock :
    (∀ (db : DB) (rfid : String) (e : BorrowEntry) (it : Item) (q : Int),
        findItemByName db e.eq = some it → pyInt e.qty = some q →
        it.quantity - it.borrowed < q →
        borrowStep db rfid e = Except.ok (db, none))
  ∧ (∀ (db : DB) (rfid instructor_rfid : String)
       (entries : List BorrowEntry),
       (∀ e ∈ entries, ∀ (it : Item) (q : Int),
         findItemByName db e.eq = some it → pyInt e.qty = some q →
         it.quantity - it.borrowed < q) →
       borrow_confirm db rfid instructor_rfid entries = (db, [])) := by
  constructor
  · intro db rfid e it q hf hp hlt
    simp [borrowStep, hf, hp, hlt]
  · intro db rfid irfid entries h
    unfold borrow_confirm
    by_cases hm : rfid ∈ db.borrowers ∧ irfid ∈ db.borrowers
    · rw [if_pos hm]
      rcases borrowSteps_insufficient rfid db entries [] h with hcase | hcase
      · rw [hcase]
      · rw [hcase]
    · rw [if_neg hm]

def c5db : DB :=
  ⟨["R", "I"], [⟨1, "Mouse", 5, 0, "Available"⟩], [], 1⟩

def c5entry : BorrowEntry := ⟨"Mouse", "7", "Good"⟩

theorem c5_insufficient_stock_witness :
    borrowStep c5db "R" c5entry = Except.ok (c5db, none) ∧
    borrow_confirm c5db "R" "I" [c5entry] = (c5db, []) := by
  have hyp : ∀ e ∈ [c5entry], ∀ (it : Item) (q : Int),
      findItemByName c5db e.eq = some it → pyInt e.qty = some q →
      it.quantity - it.borrowed < q := by
    intro e he it q hf hp
    rw [List.mem_singleton] at he
    subst he
    rw [show findItemByName c5db c5entry.eq =
          some ⟨1, "Mouse", 5, 0, "Available"⟩ from rfl] at hf
    rw [show pyInt c5entry.qty = some 7 from rfl] at hp
    injection hf with hf2
    injection hp with hp2
    subst hf2
    subst hp2
    decide
  exact ⟨c5_insufficient_stock.1 c5db "R" c5entry
           ⟨1, "Mouse", 5, 0, "Available"⟩ 7 rfl rfl (by decide),
         c5_insufficient_stock.2 c5db "R" "I" [c5entry] hyp⟩

/-! ### Claim C6: availability_status as derived state -/

def c6db : DB :=
  ⟨["R", "I"], [⟨1, "Mouse", 1, 0, "Available"⟩], [], 1⟩

/-- C6 counterexample.  A committed issue that exhausts the stock of
an item leaves `status` at "Available" although
`borrowed_quantity < total_quantity` now fails: the issue path
increments `borrowed` without recomputing `status`, so the claimed
biconditional is false after this committed issue operation. -/
theorem c6_issue_stale_status :
    (borrow_confirm c6db "R" "I" [⟨"Mouse", "1", "Good"⟩]).1.items.map
        (fun i => (i.borrowed, i.quantity, i.status)) = [(1, 1, "Available")] ∧
    ¬ (∀ i ∈ (borrow_confirm c6db "R" "I" [⟨"Mouse", "1", "Good"⟩]).1.items,
        i.status = "Available" ↔ i.borrowed < i.quantity) := by
  decide

theorem recomputeItem_frame (db : DB) (iid : Nat) (i : Item)
    (hi : i ∈ (recomputeItem db iid).items) :
    i ∈ db.items ∨ (i.status = "Available" ↔ i.borrowed < i.quantity) := by
  unfold recomputeItem at hi
  by_cases hemp : (db.txns.filter (fun t => t.item_id == iid)).isEmpty
  · rw [if_pos hemp] at hi
    exact Or.inl hi
  · rw [if_neg hemp] at hi
    simp only [List.mem_map] at hi
    obtain ⟨i0, hi0, rfl⟩ := hi
    by_cases hid : i0.item_id = iid
    · rw [if_pos hid]
      right
      by_cases hlt : stillBorrowed db.txns iid < i0.quantity
      · simp [hlt]
      · simp [hlt]
    · rw [if_neg hid]
      exact Or.inl hi0

theorem processEntry_frame (oracle : Nat → Bool) (db : DB) (rfid : String)
    (e : RetEntry) (d ctr : Nat) (db1 : DB) (its : List RetItem) (ctr1 : Nat)
    (hok : processEntry oracle db rfid e d ctr = Except.ok (db1, its, ctr1))
    (i : Item) (hi : i ∈ db1.items) :
    i ∈ db.items ∨ (i.status = "Available" ↔ i.borrowed < i.quantity) := by
  by_cases hg : pyStrip e.qty = "" ∨ pyStrip e.cond = ""
  · simp [processEntry, hg] at hok
    rw [hok.1]
    exact Or.inl hi
  · cases hpi : pyInt e.qty with
    | none =>
      simp [processEntry, hg, hpi] at hok
      rw [hok.1]
      exact Or.inl hi
    | some q =>
      by_cases hq0 : q ≤ 0
      · simp [processEntry, hg, hpi, hq0] at hok
        rw [hok.1]
        exact Or.inl hi
      · cases hfetch : fetchOpen db rfid e.item_name with
        | nil =>
          simp [processEntry, hg, hpi, hq0, hfetch] at hok
          rw [hok.1]
          exact Or.inl hi
        | cons t0 rest =>
          cases hrun : runUpdates oracle e.cond d db.txns
              (walkUpdates (t0 :: rest) q) ctr with
          | error u =>
            simp [processEntry, hg, hpi, hq0, hfetch, hrun] at hok
          | ok pr =>
            by_cases horc : oracle pr.2
            · simp [processEntry, hg, hpi, hq0, hfetch, hrun, horc] at hok
            · simp [processEntry, hg, hpi, hq0, hfetch, hrun, horc] at hok
              rw [← hok.1] at hi
              have := recomputeItem_frame
                { db with txns := pr.1 } t0.item_id i hi
              simpa using this

theorem processEntries_frame (oracle : Nat → Bool) (rfid : String) (d : Nat) :
    ∀ (entries : List RetEntry) (db : DB) (ctr : Nat) (acc : List RetItem)
      (db1 : DB) (its : List RetItem),
      processEntries oracle rfid d db entries ctr acc = Except.ok (db1, its) →
      ∀ i ∈ db1.items,
        i ∈ db.items ∨ (i.status = "Available" ↔ i.borrowed < i.quantity) := by
  intro entries
  induction entries with
  | nil =>
    intro db ctr acc db1 its hok i hi
    simp [processEntries] at hok
    rw [hok.1]
    exact Or.inl hi
  | cons e es ih =>
    intro db ctr acc db1 its hok i hi
    have hcons : processEntries oracle rfid d db (e :: es) ctr acc =
        match processEntry oracle db rfid e d ctr with
        | Except.error _ => Except.error ()
        | Except.ok (dbm, itsm, ctrm) =>
          processEntries oracle rfid d dbm es ctrm (acc ++ itsm) := rfl
    rw [hcons] at hok
    cases hstep : processEntry oracle db rfid e d ctr with
    | error u => rw [hstep] at hok; cases hok
    | ok trip =>
      rw [hstep] at hok
      rcases ih trip.1 trip.2.2 (acc ++ trip.2.1) db1 its hok i hi with hmem | hc
      · exact processEntry_frame oracle db rfid e d ctr trip.1 trip.2.1 trip.2.2
          (by rw [hstep]) i hmem
      · exact Or.inr hc

/-- C6 amended.  After every committed return operation, every
inventory row either is exactly the row that was already there before
the submission (its item had no valid credited entry) or satisfies
`status = "Available" ↔ borrowed < quantity`, the recomputation the
return path performs; the issue path increments `borrowed` without
recomputing `status` (see the counterexample), so the biconditional
is only re-established by returns and only for the items they
recompute. -/
theorem c6_return_recomputes_status (oracle : Nat → Bool) (db : DB)
    (rfid : String) (entries : List RetEntry) (d : Nat) (i : Item)
    (hi : i ∈ (process_return oracle db rfid entries d).1.items) :
    i ∈ db.items ∨ (i.status = "Available" ↔ i.borrowed < i.quantity) := by
  unfold process_return at hi
  by_cases hb : rfid ∈ db.borrowers
  · rw [if_pos hb] at hi
    cases hrun : processEntries oracle rfid d db entries 0 [] with
    | error u =>
      rw [hrun] at hi
      exact Or.inl hi
    | ok pr =>
      rw [hrun] at hi
      by_cases hnil : pr.2.isEmpty
      · simp [hnil] at hi
        exact Or.inl hi
      · simp [hnil] at hi
        exact processEntries_frame oracle rfid d entries db 0 [] pr.1 pr.2
          (by rw [hrun]) i hi
  · rw [if_neg hb] at hi
    exact Or.inl hi

def c6wdb : DB :=
  ⟨["R"], [⟨1, "Mouse", 10, 5, "Unavailable"⟩],
   [⟨1, "R", 1, 2, 0, "Good", none, none⟩], 2⟩

theorem c6_return_recomputes_status_witness :
    (⟨1, "Mouse", 10, 0, "Available"⟩ : Item) ∈ c6wdb.items ∨
      ((⟨1, "Mouse", 10, 0, "Available"⟩ : Item).status = "Available" ↔
        (⟨1, "Mouse", 10, 0, "Available"⟩ : Item).borrowed <
          (⟨1, "Mouse", 10, 0, "Available"⟩ : Item).quantity) :=
  c6_return_recomputes_status noFail c6wdb "R" [⟨"Mouse", "2", "Good"⟩] 7
    ⟨1, "Mouse", 10, 0, "Available"⟩ (by decide)

/-! ### Claim C2: the ledger invariant, broken by the prototype -/

def c2db : PrevDB :=
  ⟨[1], [⟨1, "Mouse", 5, 3, "Borrowed"⟩],
   [⟨1, "", 1, 3, 0, "Good", none, none⟩],
   [⟨7, 1, 1, [⟨"Mouse", 5, "Worn"⟩]⟩]⟩

/-- C2 at its failing input.  The prototype's `confirm_return`
(app_prev.py) credits the claimed quantity without clamping and
decrements the ledger by the claimed quantity clamped at zero, so a
pending over-claim of 5 against a single row of `borrowed_qty = 3`
commits a state with `borrowed = 0` while
`SUM(borrowed_qty - returned_qty) = -2`: the claimed invariant fails
after this committed return operation. -/
theorem c2_prev_ledger_broken :
    (confirm_return c2db 7 9).2 = ConfirmResult.ok ∧
    (confirm_return c2db 7 9).1.items.map (fun i => i.borrowed) = [0] ∧
    (((confirm_return c2db 7 9).1.txns.filter (fun t => t.item_id == 1)).map
      (fun t => t.borrowed_qty - t.returned_qty)).sum = -2 ∧
    ¬ (∀ i ∈ (confirm_return c2db 7 9).1.items,
        i.borrowed =
          (((confirm_return c2db 7 9).1.txns.filter
              (fun t => t.item_id == i.item_id)).map
            (fun t => t.borrowed_qty - t.returned_qty)).sum) := by
  decide

/-! ### Claim C3: no over-credit, broken by the prototype -/

def c3db : PrevDB :=
  ⟨[1], [⟨1, "Mouse", 5, 2, "Borrowed"⟩],
   [⟨1, "", 1, 2, 0, "Good", none, none⟩],
   [⟨4, 1, 1, [⟨"Mouse", 5, "Worn"⟩]⟩]⟩

/-- C3 at its failing input.  The prototype's `confirm_return`
(app_prev.py) runs
`UPDATE transactions SET returned_qty = returned_qty + ?` with no
clamp against `borrowed_qty`, so approving a pending claim of 5
against a single row of `borrowed_qty = 2` commits
`returned_qty = 5 > borrowed_qty = 2`, violating the claimed
invariant `0 ≤ returned_qty ≤ borrowed_qty`. -/
theorem c3_prev_overcredit :
    (confirm_return c3db 4 9).2 = ConfirmResult.ok ∧
    (confirm_return c3db 4 9).1.txns.map
        (fun t => (t.borrowed_qty, t.returned_qty)) = [(2, 5)] ∧
    ¬ (∀ t ∈ (confirm_return c3db 4 9).1.txns,
        0 ≤ t.returned_qty ∧ t.returned_qty ≤ t.borrowed_qty) := by
  decide

/-! ### Claim C9: pending-return staging is terminal and framed -/

theorem find_after_delete (l : List Pending) (pid : Nat) :
    (l.filter (fun q => q.id != pid)).find? (fun q => q.id == pid) = none := by
  induction l with
  | nil => rfl
  | cons p ps ih =>
    by_cases h : p.id = pid
    · simp [List.filter_cons, h, ih]
    · simp [List.filter_cons, List.find?, h, ih]

theorem confirmApplyLine_pendings (bid d : Nat) (db : PrevDB)
    (line : ClaimLine) :
    (confirmApplyLine bid d db line).pendings = db.pendings := by
  unfold confirmApplyLine
  cases db.items.find? (fun i => i.item_name == line.equipment) with
  | none => rfl
  | some it => rfl

theorem confirmApply_fold_pendings (bid d : Nat) :
    ∀ (lines : List ClaimLine) (db : PrevDB),
      (lines.foldl (confirmApplyLine bid d) db).pendings = db.pendings := by
  intro lines
  induction lines with
  | nil => intro db; rfl
  | cons line rest ih =>
    intro db
    rw [List.foldl_cons, ih, confirmApplyLine_pendings]

/-- C9.  `reject_return` deletes only the staging row — transactions,
inventory and borrowers are untouched and no reconciliation runs —
while `confirm_return` applies the stored claim lines against the
live transaction and inventory records and then deletes the staging
row; both outcomes are terminal: the staging row is gone afterwards,
and confirming a missing pending id changes nothing. -/
theorem c9_pending_staging :
    (∀ (db : PrevDB) (pid : Nat),
       (reject_return db pid).txns = db.txns ∧
       (reject_return db pid).items = db.items ∧
       (reject_return db pid).borrowers = db.borrowers ∧
       (reject_return db pid).pendings =
         db.pendings.filter (fun q => q.id != pid) ∧
       (reject_return db pid).pendings.find? (fun q => q.id == pid) = none)
  ∧ (∀ (db : PrevDB) (pid d : Nat) (p : Pending),
       db.pendings.find? (fun q => q.id == pid) = some p →
       p.user_id ∈ db.borrowers →
       confirm_return db pid d =
         ({ p.return_data.foldl (confirmApplyLine p.borrow_id d) db with
            pendings := db.pendings.filter (fun q => q.id != pid) },
          ConfirmResult.ok) ∧
       (confirm_return db pid d).1.pendings.find? (fun q => q.id == pid) = none)
  ∧ (∀ (db : PrevDB) (pid d : Nat),
       db.pendings.find? (fun q => q.id == pid) = none →
       confirm_return db pid d = (db, ConfirmResult.pendingNotFound)) := by
  refine ⟨?_, ?_, ?_⟩
  · intro db pid
    exact ⟨rfl, rfl, rfl, rfl, find_after_delete db.pendings pid⟩
  · intro db pid d p hfind hmem
    have heq : confirm_return db pid d =
        ({ p.return_data.foldl (confirmApplyLine p.borrow_id d) db with
           pendings := db.pendings.filter (fun q => q.id != pid) },
         ConfirmResult.ok) := by
      unfold confirm_return
      simp only [hfind]
      rw [if_pos hmem]
      simp only [confirmApply_fold_pendings]
    refine ⟨heq, ?_⟩
    rw [heq]
    exact find_after_delete db.pendings pid
  · intro db pid d hfind
    unfold confirm_return
    rw [hfind]

def c9p : Pending := ⟨7, 1, 1, [⟨"Mouse", 2, "Worn"⟩]⟩

def c9db : PrevDB :=
  ⟨[1], [⟨1, "Mouse", 5, 3, "Borrowed"⟩],
   [⟨1, "", 1, 3, 0, "Good", none, none⟩], [c9p]⟩

theorem c9_pending_staging_witness :
    ((reject_return c9db 7).txns = c9db.txns ∧
     (reject_return c9db 7).items = c9db.items ∧
     (reject_return c9db 7).borrowers = c9db.borrowers ∧
     (reject_return c9db 7).pendings =
       c9db.pendings.filter (fun q => q.id != 7) ∧
     (reject_return c9db 7).pendings.find? (fun q => q.id == 7) = none) ∧
    (confirm_return c9db 7 9 =
       ({ c9p.return_data.foldl (confirmApplyLine c9p.borrow_id 9) c9db with
          pendings := c9db.pendings.filter (fun q => q.id != 7) },
        ConfirmResult.ok) ∧
     (confirm_return c9db 7 9).1.pendings.find? (fun q => q.id == 7) = none) ∧
    confirm_return c9db 5 9 = (c9db, ConfirmResult.pendingNotFound) :=
  ⟨c9_pending_staging.1 c9db 7,
   c9_pending_staging.2.1 c9db 7 9 c9p (by decide) (by decide),
   c9_pending_staging.2.2 c9db 5 9 (by decide)⟩

/-! ### Claim C1: FIFO allocation across open rows -/

theorem outBefore_zero (rows : List Txn) : outBefore rows 0 = 0 := rfl

theorem outBefore_succ_cons (t : Txn) (ts : List Txn) (j : Nat) :
    outBefore (t :: ts) (j + 1) = outstanding t + outBefore ts j := by
  simp [outBefore, List.take_succ_cons]

theorem outBefore_nonneg (rows : List Txn) (j : Nat)
    (h : ∀ t ∈ rows, 0 < outstanding t) : 0 ≤ outBefore rows j := by
  apply List.sum_nonneg
  intro x hx
  simp only [List.mem_map] at hx
  obtain ⟨t, ht, rfl⟩ := hx
  exact le_of_lt (h t (List.take_subset j rows ht))

theorem walkUpdates_closed_form (rows : List Txn) :
    ∀ (rem : Int), (∀ t ∈ rows, 0 < outstanding t) → 1 ≤ rem →
      ∀ (j : Nat) (t : Txn), rows[j]? = some t →
        (walkUpdates rows rem)[j]? =
          if outBefore rows j < rem then
            some { borrow_id := t.borrow_id,
                   new_returned := t.returned_qty +
                     min (rem - outBefore rows j) (outstanding t),
                   credited := min (rem - outBefore rows j) (outstanding t) }
          else none := by
  induction rows with
  | nil =>
    intro rem h1 h2 j t hjt
    simp at hjt
  | cons t0 ts ih =>
    intro rem h1 h2 j t hjt
    have h0 : 0 < outstanding t0 := h1 t0 (List.mem_cons_self _ _)
    have hcons : walkUpdates (t0 :: ts) rem =
        { borrow_id := t0.borrow_id,
          new_returned := t0.returned_qty + min rem (outstanding t0),
          credited := min rem (outstanding t0) }
          :: (if rem - min rem (outstanding t0) ≤ 0 then []
              else walkUpdates ts (rem - min rem (outstanding t0))) := rfl
    cases j with
    | zero =>
      rw [List.getElem?_cons_zero] at hjt
      injection hjt with ht
      subst ht
      rw [hcons, List.getElem?_cons_zero,
        if_pos (show outBefore (t0 :: ts) 0 < rem by rw [outBefore_zero]; omega)]
      rw [outBefore_zero, sub_zero]
    | succ j =>
      rw [List.getElem?_cons_succ] at hjt
      rw [hcons, List.getElem?_cons_succ]
      have hts : ∀ x ∈ ts, 0 < outstanding x :=
        fun x hx => h1 x (List.mem_cons_of_mem _ hx)
      have hnn : 0 ≤ outBefore ts j := outBefore_nonneg ts j hts
      by_cases hle : rem ≤ outstanding t0
      · have hmin : min rem (outstanding t0) = rem := min_eq_left hle
        rw [hmin, if_pos (show rem - rem ≤ 0 by omega), List.getElem?_nil]
        rw [if_neg (show ¬ outBefore (t0 :: ts) (j + 1) < rem by
          rw [outBefore_succ_cons]; omega)]
      · push_neg at hle
        have hmin : min rem (outstanding t0) = outstanding t0 :=
          min_eq_right (le_of_lt hle)
        rw [hmin, if_neg (show ¬ rem - outstanding t0 ≤ 0 by omega)]
        rw [ih (rem - outstanding t0) hts (by omega) j t hjt,
          outBefore_succ_cons]
        by_cases hc : outBefore ts j < rem - outstanding t0
        · rw [if_pos hc,
            if_pos (show outstanding t0 + outBefore ts j < rem by omega)]
          have harith : rem - outstanding t0 - outBefore ts j =
              rem - (outstanding t0 + outBefore ts j) := by ring
          rw [harith]
        · rw [if_neg hc,
            if_neg (show ¬ outstanding t0 + outBefore ts j < rem by omega)]

def c1db : DB :=
  ⟨["R"], [⟨1, "Mouse", 10, 5, "Unavailable"⟩],
   [⟨1, "R", 1, 2, 0, "Good", none, none⟩,
    ⟨2, "R", 1, 3, 0, "Good", none, none⟩], 3⟩

def c1dbAfter : DB :=
  ⟨["R"], [⟨1, "Mouse", 10, 1, "Available"⟩],
   [⟨1, "R", 1, 2, 2, "Good", some "Good", some 7⟩,
    ⟨2, "R", 1, 3, 2, "Good", some "Good", some 7⟩], 3⟩

/-- C1.  The return path fetches the open rows of (borrower, item) in
ascending transaction-id order (first conjunct: the fetch preserves
the strictly-ascending id order of the table) and walks them
oldest-first: the row at position j is visited exactly when the
outstanding balances before it have not yet exhausted the claim, it
is credited `min(remaining_claim, borrowed_qty - returned_qty)` with
its condition and return date stamped, and rows past the point where
the remaining claim reaches zero receive no update at all (second
conjunct, a closed form of the walk).  In particular, with two open
rows of outstanding balances 2 and 3, a claim of 4 fully credits the
oldest row and credits 2 to the second, leaving the second row's
outstanding balance at 1 (third conjunct, run through the whole
handler). -/
theorem c1_fifo_allocation :
    (∀ (db : DB) (rfid nm : String),
       List.Pairwise (fun a b => a.borrow_id < b.borrow_id) db.txns →
       List.Pairwise (fun a b => a.borrow_id < b.borrow_id)
         (fetchOpen db rfid nm))
  ∧ (∀ (rows : List Txn) (rem : Int),
       (∀ t ∈ rows, 0 < outstanding t) → 1 ≤ rem →
       ∀ (j : Nat) (t : Txn), rows[j]? = some t →
         (walkUpdates rows rem)[j]? =
           if outBefore rows j < rem then
             some { borrow_id := t.borrow_id,
                    new_returned := t.returned_qty +
                      min (rem - outBefore rows j) (outstanding t),
                    credited := min (rem - outBefore rows j) (outstanding t) }
           else none)
  ∧ (process_return noFail c1db "R" [⟨"Mouse", "4", "Good"⟩] 7 =
       (c1dbAfter,
        "✅ Return recorded successfully. Partial returns saved if applicable.",
        [⟨"Mouse", 2, "Good"⟩, ⟨"Mouse", 2, "Good"⟩]) ∧
     (process_return noFail c1db "R" [⟨"Mouse", "4", "Good"⟩] 7).1.txns.map
       outstanding = [0, 1]) := by
  refine ⟨?_, ?_, ?_⟩
  · intro db rfid nm hp
    exact List.Pairwise.filter _ hp
  · exact fun rows => walkUpdates_closed_form rows
  · constructor <;> decide

def c1rows : List Txn :=
  [⟨1, "R", 1, 2, 0, "Good", none, none⟩,
   ⟨2, "R", 1, 3, 0, "Good", none, none⟩]

theorem c1_fifo_allocation_witness :
    List.Pairwise (fun a b => a.borrow_id < b.borrow_id)
      (fetchOpen c1db "R" "Mouse") ∧
    (walkUpdates c1rows 4)[1]? =
      some { borrow_id := 2, new_returned := 2, credited := 2 } := by
  constructor
  · exact c1_fifo_allocation.1 c1db "R" "Mouse" (by decide)
  · have h := c1_fifo_allocation.2.1 c1rows 4 (by decide) (by decide) 1
      ⟨2, "R", 1, 3, 0, "Good", none, none⟩ (by decide)
    exact h.trans (by decide)

/-! ### Claim C7: over-return is silently truncated -/

theorem walkUpdates_full_credit (rows : List Txn) :
    ∀ (rem : Int), (∀ t ∈ rows, 0 < outstanding t) →
      (rows.map outstanding).sum ≤ rem →
      walkUpdates rows rem = rows.map (fun t =>
        { borrow_id := t.borrow_id, new_returned := t.borrowed_qty,
          credited := outstanding t }) := by
  induction rows with
  | nil => intro rem h1 h2; rfl
  | cons t0 ts ih =>
    intro rem h1 h2
    have h0 : 0 < outstanding t0 := h1 t0 (List.mem_cons_self _ _)
    have hts : ∀ x ∈ ts, 0 < outstanding x :=
      fun x hx => h1 x (List.mem_cons_of_mem _ hx)
    have hnn : 0 ≤ (ts.map outstanding).sum := by
      apply List.sum_nonneg
      intro x hx
      simp only [List.mem_map] at hx
      obtain ⟨t, ht, rfl⟩ := hx
      exact le_of_lt (hts t ht)
    have h2s : outstanding t0 + (ts.map outstanding).sum ≤ rem := by
      simpa using h2
    have hle : outstanding t0 ≤ rem := by omega
    have hmin : min rem (outstanding t0) = outstanding t0 :=
      min_eq_right hle
    have hcons : walkUpdates (t0 :: ts) rem =
        { borrow_id := t0.borrow_id,
          new_returned := t0.returned_qty + min rem (outstanding t0),
          credited := min rem (outstanding t0) }
          :: (if rem - min rem (outstanding t0) ≤ 0 then []
              else walkUpdates ts (rem - min rem (outstanding t0))) := rfl
    have hhead : t0.returned_qty + outstanding t0 = t0.borrowed_qty := by
      unfold outstanding
      ring
    cases ts with
    | nil =>
      have htail : (if rem - outstanding t0 ≤ 0 then ([] : List RowUpdate)
          else walkUpdates [] (rem - outstanding t0)) = [] := by
        split <;> rfl
      rw [hcons, hmin, htail, hhead]
      rfl
    | cons x xs =>
      have hxpos : 0 < outstanding x := hts x (List.mem_cons_self _ _)
      have hxnn : 0 ≤ (xs.map outstanding).sum := by
        apply List.sum_nonneg
        intro y hy
        simp only [List.mem_map] at hy
        obtain ⟨t, ht, rfl⟩ := hy
        exact le_of_lt (hts t (List.mem_cons_of_mem _ ht))
      have hsum2 : (List.map outstanding (x :: xs)).sum =
          outstanding x + (xs.map outstanding).sum := by simp
      have hntl : ¬ rem - outstanding t0 ≤ 0 := by
        rw [hsum2] at h2s
        omega
      rw [hcons, hmin, if_neg hntl, hhead]
      rw [ih (rem - outstanding t0) hts (by omega)]
      rfl

theorem runUpdates_noFail (cond : String) (d : Nat) :
    ∀ (ups : List RowUpdate) (txns : List Txn) (ctr : Nat),
      ∃ r, runUpdates noFail cond d txns ups ctr = Except.ok r := by
  intro ups
  induction ups with
  | nil => exact fun txns ctr => ⟨(txns, ctr), rfl⟩
  | cons u us ih =>
    intro txns ctr
    have h := ih (applyUpdate txns u cond d) (ctr + 1)
    simpa [runUpdates, noFail] using h

theorem processEntry_noFail (db : DB) (rfid : String) (e : RetEntry)
    (d ctr : Nat) :
    ∃ r, processEntry noFail db rfid e d ctr = Except.ok r := by
  by_cases hg : pyStrip e.qty = "" ∨ pyStrip e.cond = ""
  · exact ⟨(db, [], ctr), by unfold processEntry; rw [if_pos hg]⟩
  · cases hpi : pyInt e.qty with
    | none => exact ⟨(db, [], ctr), by simp [processEntry, hg, hpi]⟩
    | some q =>
      by_cases hq0 : q ≤ 0
      · exact ⟨(db, [], ctr), by simp [processEntry, hg, hpi, hq0]⟩
      · cases hfetch : fetchOpen db rfid e.item_name with
        | nil => exact ⟨(db, [], ctr), by simp [processEntry, hg, hpi, hq0, hfetch]⟩
        | cons t0 rest =>
          obtain ⟨⟨txns1, ctr1⟩, hrun⟩ :=
            runUpdates_noFail e.cond d (walkUpdates (t0 :: rest) q) db.txns ctr
          refine ⟨(recomputeItem { db with txns := txns1 } t0.item_id,
            (walkUpdates (t0 :: rest) q).map (fun u =>
              { item_name := e.item_name, quantity := u.credited,
                condition := e.cond }), ctr1 + 1), ?_⟩
          simp [processEntry, hg, hpi, hq0, hfetch, hrun, noFail]

theorem processEntries_noFail (rfid : String) (d : Nat) :
    ∀ (entries : List RetEntry) (db : DB) (ctr : Nat) (acc : List RetItem),
      ∃ r, processEntries noFail rfid d db entries ctr acc = Except.ok r := by
  intro entries
  induction entries with
  | nil => exact fun db ctr acc => ⟨(db, acc), rfl⟩
  | cons e es ih =>
    intro db ctr acc
    obtain ⟨⟨db1, its, ctr1⟩, hstep⟩ := processEntry_noFail db rfid e d ctr
    have hcons : processEntries noFail rfid d db (e :: es) ctr acc =
        match processEntry noFail db rfid e d ctr with
        | Except.error _ => Except.error ()
        | Except.ok (dbm, itsm, ctrm) =>
          processEntries noFail rfid d dbm es ctrm (acc ++ itsm) := rfl
    obtain ⟨r, hr⟩ := ih db1 ctr1 (acc ++ its)
    exact ⟨r, by rw [hcons, hstep]; exact hr⟩

def c7db : DB :=
  ⟨["R"], [⟨1, "Mouse", 10, 5, "Unavailable"⟩],
   [⟨1, "R", 1, 2, 0, "Good", none, none⟩,
    ⟨2, "R", 1, 3, 0, "Good", none, none⟩], 3⟩

def c7dbAfter : DB :=
  ⟨["R"], [⟨1, "Mouse", 10, 0, "Available"⟩],
   [⟨1, "R", 1, 2, 2, "Good", some "Worn", some 7⟩,
    ⟨2, "R", 1, 3, 3, "Good", some "Worn", some 7⟩], 3⟩

/-- C7.  When the claimed quantity for an item is at least the sum of
the outstanding balances of its open rows, every open row is credited
exactly up to its outstanding balance (first conjunct), no error is
ever raised by the entry loop absent a persistence fault (second
conjunct), and the submission completes with the success flash (third
conjunct: a claim of 10 against outstanding balances 2 and 3 credits
2 and 3, closes both rows, and reports success — the excess 5 is
silently dropped). -/
theorem c7_overreturn_truncated :
    (∀ (rows : List Txn) (rem : Int),
       (∀ t ∈ rows, 0 < outstanding t) →
       (rows.map outstanding).sum ≤ rem →
       walkUpdates rows rem = rows.map (fun t =>
         { borrow_id := t.borrow_id, new_returned := t.borrowed_qty,
           credited := outstanding t }))
  ∧ (∀ (rfid : String) (d : Nat) (entries : List RetEntry) (db : DB)
       (ctr : Nat) (acc : List RetItem),
       ∃ r, processEntries noFail rfid d db entries ctr acc = Except.ok r)
  ∧ (process_return noFail c7db "R" [⟨"Mouse", "10", "Worn"⟩] 7 =
       (c7dbAfter,
        "✅ Return recorded successfully. Partial returns saved if applicable.",
        [⟨"Mouse", 2, "Worn"⟩, ⟨"Mouse", 3, "Worn"⟩])) := by
  refine ⟨?_, ?_, ?_⟩
  · exact fun rows => walkUpdates_full_credit rows
  · exact fun rfid d entries db ctr acc => processEntries_noFail rfid d entries db ctr acc
  · decide

def c7rows : List Txn :=
  [⟨1, "R", 1, 2, 0, "Good", none, none⟩,
   ⟨2, "R", 1, 3, 0, "Good", none, none⟩]

theorem c7_overreturn_truncated_witness :
    walkUpdates c7rows 10 =
      [{ borrow_id := 1, new_returned := 2, credited := 2 },
       { borrow_id := 2, new_returned := 3, credited := 3 }] ∧
    ∃ r, processEntries noFail "R" 7 c7db [⟨"Mouse", "10", "Worn"⟩] 0 [] =
      Except.ok r := by
  constructor
  · have h := c7_overreturn_truncated.1 c7rows 10 (by decide) (by decide)
    exact h.trans (by decide)
  · exact c7_overreturn_truncated.2.1 "R" 7 [⟨"Mouse", "10", "Worn"⟩] c7db 0 []

end UmakLebs
